import Mathlib

/-!
Verification of the HTTP request surface of the bitflow-process-agent
(src/http.go) against its specification.

The handlers in src/http.go are embedded as pure Lean functions.  The
engine state (pipeline registry) and the pipeline record, which live in
other files of the repository, are modelled from the specification.
External collaborators (Go standard library parsing, shell splitting)
are embedded as follows: strconv.Atoi and time.ParseDuration are
modelled from their documented Go semantics; shell splitting
(shellquote.Split) is an explicitly excluded external collaborator and
is passed in as a function argument.

Machine integers: Go int / time.Duration are 64-bit; values are
modelled as Int or Nat with the explicit cutoffs 2^63 and 2^63 - 1
where the Go code checks overflow.
-/

/-- Modelled from the spec: the pipeline status enumeration
{Pending, Running, Failed, Killed, Finished} (spec section 3),
defined outside src/ in the repository. -/
inductive PipelineStatus where
  | Pending
  | Running
  | Failed
  | Killed
  | Finished
deriving DecidableEq, Repr

/-- Modelled from the spec: the StatusRunning constant referenced by
serveRunningPipelines in src/http.go. -/
def StatusRunning : PipelineStatus := PipelineStatus.Running

/-- Modelled from the spec: the RunningPipeline record (spec section 3).
Only the fields the handlers in src/http.go touch are carried:
Id (integer identity), the definition (script and extra parameters),
the start delay (nanoseconds, as Go time.Duration), and the status. -/
structure RunningPipeline where
  Id : Int
  Script : String
  Delay : Int
  ExtraParams : List String
  Status : PipelineStatus
deriving DecidableEq, Repr

/-- Modelled from the spec: the SubprocessEngine registry state
(spec section 3): a mapping from integer identity to pipeline
(embedded as an association list with unique keys) and the
monotonically increasing identity counter.  The pipelinesLock of the
source guards this state; in the sequential embedding every handler
runs on one state. -/
structure SubprocessEngine where
  pipelines : List (Int × RunningPipeline)
  nextId : Int
deriving DecidableEq, Repr

/-- An HTTP reply as written by replyString / c.JSON in src/http.go:
a status code and a body.  Human-readable message bodies are carried
verbatim where a claim depends on them and abbreviated otherwise. -/
structure HttpReply where
  code : Nat
  body : String
deriving DecidableEq, Repr

/-- Registry lookup, the embedding of the Go map read
engine.pipelines[id] (a nil / zero value results when the key is
absent, embedded as none). -/
def lookupAssoc : List (Int × RunningPipeline) → Int → Option RunningPipeline
  | [], _ => none
  | (k, v) :: rest, id => if k = id then some v else lookupAssoc rest id

/-- Digit accumulator for goAtoi: consumes the whole list, failing on
the first non-digit character. -/
def digitsToNat : List Char → Nat → Option Nat
  | [], acc => some acc
  | c :: rest, acc =>
    if c.isDigit then digitsToNat rest (acc * 10 + (c.toNat - 48)) else none

/-- Embedding of Go strconv.Atoi (strconv.ParseInt with base 10 and
64-bit size): returns the parsed value and an ok flag.  On a syntax
error Go returns (0, err); on a range error it returns the clamped
maximal / minimal int64 together with an error.  The ok flag is the
err == nil test of the source. -/
def goAtoi (s : String) : Int × Bool :=
  match s.data with
  | [] => (0, false)
  | c :: rest =>
    let signDigits : Bool × List Char :=
      if c = '-' then (true, rest)
      else if c = '+' then (false, rest)
      else (false, c :: rest)
    match signDigits with
    | (neg, digits) =>
      match digits with
      | [] => (0, false)
      | _ =>
        match digitsToNat digits 0 with
        | none => (0, false)
        | some n =>
          if ¬neg ∧ n ≥ 9223372036854775808 then (9223372036854775807, false)
          else if neg ∧ n > 9223372036854775808 then (-9223372036854775808, false)
          else ((if neg then -(n : Int) else (n : Int)), true)

/-- The observable outcome of getPipeline in src/http.go: the replies
written to the response, the pipeline returned to the caller, the
engine state after the call, and the list of registry keys that were
looked up. -/
structure GetPipelineResult where
  replies : List HttpReply
  result : Option RunningPipeline
  engine : SubprocessEngine
  lookups : List Int
deriving DecidableEq, Repr

/-- Embedding of getPipeline (src/http.go lines 165-179).  Note: on a
parse error the source writes a 400 reply but does NOT return; it
falls through and performs the registry lookup with the zero id value
returned by strconv.Atoi, possibly writing a second (404) reply. -/
def getPipeline (engine : SubprocessEngine) (idStr : String) : GetPipelineResult :=
  match goAtoi idStr with
  | (id, ok) =>
    let replies1 : List HttpReply :=
      if ok then [] else [⟨400, "Failed to parse parameter " ++ idStr ++ " to int"⟩]
    let pipeline := lookupAssoc engine.pipelines id
    let replies2 : List HttpReply :=
      if pipeline.isSome then [] else [⟨404, "Pipeline does not exist: " ++ idStr⟩]
    { replies := replies1 ++ replies2
      result := pipeline
      engine := engine
      lookups := [id] }

/-- Embedding of serveFilteredPipelineIds (src/http.go lines 54-65):
under the registry lock, collect the Id of every pipeline accepted by
the predicate, then sort ascending (sort.Ints).  Sorting is embedded
as insertion sort: sort.Ints sorts in ascending order and the output
on integers is independent of the algorithm. -/
def serveFilteredPipelineIds (engine : SubprocessEngine)
    (accept : RunningPipeline → Bool) : List Int :=
  List.insertionSort (· ≤ ·)
    ((engine.pipelines.filter fun kv => accept kv.2).map fun kv => kv.2.Id)

/-- Embedding of servePipelines (src/http.go lines 67-71): list with
the constantly true predicate. -/
def servePipelines (engine : SubprocessEngine) : List Int :=
  serveFilteredPipelineIds engine fun _ => true

/-- Embedding of serveRunningPipelines (src/http.go lines 73-77): list
with the predicate pipe.Status == StatusRunning. -/
def serveRunningPipelines (engine : SubprocessEngine) : List Int :=
  serveFilteredPipelineIds engine fun pipe => pipe.Status == StatusRunning

/-- Registry well-formedness (spec section 3 invariants): identities
are unique keys, and every stored pipeline carries its key as its
immutable Id. -/
def EngineWF (engine : SubprocessEngine) : Prop :=
  (engine.pipelines.map Prod.fst).Nodup ∧
    ∀ kv ∈ engine.pipelines, (kv : Int × RunningPipeline).2.Id = kv.1

/-- Go time constant: DefaultNewPipelineDelay = 200 * time.Millisecond
(src/http.go line 18), in nanoseconds. -/
def DefaultNewPipelineDelay : Int := 200 * 1000000

/-- Embedding of the unitMap of Go time.ParseDuration: nanoseconds per
unit. -/
def durationUnitMap : String → Option Nat
  | "ns" => some 1
  | "us" => some 1000
  | "µs" => some 1000
  | "μs" => some 1000
  | "ms" => some 1000000
  | "s" => some 1000000000
  | "m" => some 60000000000
  | "h" => some 3600000000000
  | _ => none

/-- Embedding of Go time.leadingInt: consume leading digits into an
accumulator, failing (none) when the value would exceed 2^63. -/
def leadingInt : List Char → Nat → Option (Nat × List Char)
  | [], x => some (x, [])
  | c :: rest, x =>
    if c.isDigit then
      if x > 922337203685477580 then none
      else
        let x2 := x * 10 + (c.toNat - 48)
        if x2 > 9223372036854775808 then none
        else leadingInt rest x2
    else some (x, c :: rest)

/-- Embedding of Go time.leadingFraction: consume leading digits into
a fraction value and a power-of-ten scale, silently stopping the
accumulation on overflow. -/
def leadingFraction : List Char → Nat → Nat → Bool → Nat × Nat × List Char
  | [], x, scale, _ => (x, scale, [])
  | c :: rest, x, scale, overflow =>
    if c.isDigit then
      if overflow then leadingFraction rest x scale overflow
      else if x > 922337203685477580 then leadingFraction rest x scale true
      else
        let y := x * 10 + (c.toNat - 48)
        if y > 9223372036854775808 then leadingFraction rest x scale true
        else leadingFraction rest y (scale * 10) overflow
    else (x, scale, c :: rest)

/-- Length of the unit token at the head of the remaining input: the
number of characters before the next digit or period. -/
def durationUnitLen : List Char → Nat
  | [] => 0
  | c :: rest => if c = '.' ∨ c.isDigit then 0 else 1 + durationUnitLen rest

/-- The main loop of Go time.ParseDuration, accumulating nanoseconds.
Each iteration consumes one number-and-unit group.  The fuel argument
bounds the iteration count; every iteration consumes at least one
character, so fuel = length of the input + 1 never runs out.  The
fractional contribution uint64(float64(f) * (float64(unit) / scale))
of the source is embedded as the exact (f * unit) / scale; the float
rounding differences only affect inputs with very long fractional
parts, which no claim touches. -/
def parseDurationLoop : Nat → List Char → Nat → Option Nat
  | 0, _, _ => none
  | _ + 1, [], d => some d
  | fuel + 1, c :: s0, d =>
    if ¬(c = '.' ∨ c.isDigit) then none
    else
      match leadingInt (c :: s0) 0 with
      | none => none
      | some (v, s1) =>
        let pre : Bool := s1.length ≠ (c :: s0).length
        let fracStep : Nat × Nat × List Char × Bool :=
          match s1 with
          | '.' :: s1tail =>
            match leadingFraction s1tail 0 1 false with
            | (f, scale, s2) => (f, scale, s2, s2.length ≠ s1tail.length)
          | _ => (0, 1, s1, false)
        match fracStep with
        | (f, scale, s2, post) =>
          if ¬pre ∧ ¬post then none
          else
            let i := durationUnitLen s2
            if i = 0 then none
            else
              match durationUnitMap (String.mk (s2.take i)) with
              | none => none
              | some unit =>
                if v > 9223372036854775808 / unit then none
                else
                  let v2 := v * unit
                  let v3 := if f > 0 then v2 + (f * unit) / scale else v2
                  if f > 0 ∧ v3 > 9223372036854775808 then none
                  else
                    let d2 := d + v3
                    if d2 > 9223372036854775808 then none
                    else parseDurationLoop fuel (s2.drop i) d2

/-- Embedding of Go time.ParseDuration: parses an optionally signed
sequence of number-and-unit groups into nanoseconds; none is the
error return.  Negative durations such as "-1s" parse successfully. -/
def goParseDuration (s : String) : Option Int :=
  let cs := s.data
  let signRest : Bool × List Char :=
    match cs with
    | c :: rest => if c = '-' ∨ c = '+' then (c = '-', rest) else (false, cs)
    | [] => (false, cs)
  match signRest with
  | (neg, cs1) =>
    if cs1 = ['0'] then some 0
    else if cs1 = [] then none
    else
      match parseDurationLoop (cs1.length + 1) cs1 0 with
      | none => none
      | some d =>
        if neg then some (-(d : Int))
        else if d > 9223372036854775807 then none
        else some (d : Int)

/-- Modelled from the spec: engine.NewPipeline (spec section 4.2,
defined outside src/): allocates the next identity, constructs the
pipeline in Pending state with the given definition and start delay,
inserts it into the registry, and returns it.  The synchronous error
return of the source signature is covered separately by
finishNewPipeline, which embeds the error branch of the handler. -/
def NewPipeline (engine : SubprocessEngine) (script : String) (delay : Int)
    (extraParams : List String) : RunningPipeline × SubprocessEngine :=
  let p : RunningPipeline :=
    { Id := engine.nextId
      Script := script
      Delay := delay
      ExtraParams := extraParams
      Status := PipelineStatus.Pending }
  (p, { pipelines := engine.pipelines ++ [(engine.nextId, p)]
        nextId := engine.nextId + 1 })

/-- The observable outcome of serveNewPipeline: the reply written, the
engine state after the call, and the arguments (script, delay,
extraParams) passed to engine.NewPipeline, or none when the handler
returned before reaching the creation call. -/
structure NewPipelineResult where
  reply : HttpReply
  engine : SubprocessEngine
  created : Option (String × Int × List String)
deriving DecidableEq, Repr

/-- Embedding of serveNewPipeline (src/http.go lines 84-131).  Inputs:
the result of reading the request body (ioutil.ReadAll), the delay
and params query strings (absent query parameters arrive as the empty
string from c.Query), and the shell splitter (shellquote.Split, an
external collaborator passed as a function, none embedding its error
return).  The synchronous NewPipeline error branch (lines 126-128) is
embedded separately by finishNewPipeline. -/
def serveNewPipeline (shellSplit : String → Option (List String))
    (engine : SubprocessEngine) (body : Except String String)
    (delayQ paramsQ : String) : NewPipelineResult :=
  match body with
  | Except.error msg =>
    { reply := ⟨500, "Failed to read request body: " ++ msg⟩
      engine := engine, created := none }
  | Except.ok script =>
    if script.length = 0 then
      { reply := ⟨400, "Provide the Bitflow script for the new pipeline as the POST request body."⟩
        engine := engine, created := none }
    else
      match (if delayQ = "" then some DefaultNewPipelineDelay else goParseDuration delayQ) with
      | none =>
        { reply := ⟨400, "The parameter delay could not be parsed to a duration. Example format: 500ms"⟩
          engine := engine, created := none }
      | some delay =>
        match (if paramsQ = "" then some [] else shellSplit paramsQ) with
        | none =>
          { reply := ⟨400, "The parameter params could not be split into shell parameters. The quote syntax must follow /bin/sh."⟩
            engine := engine, created := none }
        | some extraParams =>
          match NewPipeline engine script delay extraParams with
          | (pipeline, engine2) =>
            { reply := ⟨201, "created pipeline " ++ toString pipeline.Id⟩
              engine := engine2
              created := some (script, delay, extraParams) }

/-- Embedding of the tail of serveNewPipeline (src/http.go lines
125-130): mapping the two-valued return (pipeline, err) of
engine.NewPipeline to the HTTP reply.  The pipeline pointer is an
Option (none = nil).  On the error path the source reads pipeline.Id
to build the 412 message; when the pointer is nil that read is a nil
pointer dereference, embedded as the result none.  On the success
path the pipeline is serialized without a field read, so a nil
pointer is harmless there. -/
def finishNewPipeline (pipeline : Option RunningPipeline)
    (err : Option String) : Option HttpReply :=
  match err with
  | some msg =>
    match pipeline with
    | none => none
    | some p => some ⟨412, "Error starting pipeline " ++ toString p.Id ++ ": " ++ msg⟩
  | none => some ⟨201, "created pipeline"⟩

example : goAtoi "abc" = (0, false) := by decide
example : goAtoi "42" = (42, true) := by decide
example : goAtoi "-7" = (-7, true) := by decide
example : servePipelines ⟨[(3, ⟨3, "a", 0, [], .Pending⟩), (1, ⟨1, "b", 0, [], .Running⟩)], 4⟩ = [1, 3] := by decide
example : goParseDuration "500ms" = some 500000000 := by decide
example : goParseDuration "-1s" = some (-1000000000) := by decide
example : goParseDuration "" = none := by decide
example : goParseDuration "xyz" = none := by decide
example : goParseDuration "1h30m" = some 5400000000000 := by decide
example : goParseDuration "1.5s" = some 1500000000 := by decide
example : goParseDuration "0" = some 0 := by decide
example : goParseDuration "5" = none := by decide

/-- C1: the claim states that a request with a non-integer id replies
400 and returns before any Registry lookup.  The code violates this:
at the failing input id "abc" (on the empty registry) the handler
writes the 400 reply, then still performs the registry lookup with
the zero identity value returned by strconv.Atoi and writes an
additional 404 reply; with identity 0 registered it even returns
pipeline 0 to the caller.  This evaluates the embedded handler at the
failing input. -/
theorem getPipeline_malformedId_reaches_lookup :
    ((getPipeline ⟨[], 0⟩ "abc").lookups = [0] ∧
      (getPipeline ⟨[], 0⟩ "abc").replies =
        [⟨400, "Failed to parse parameter abc to int"⟩,
         ⟨404, "Pipeline does not exist: abc"⟩]) ∧
    (getPipeline ⟨[(0, ⟨0, "s", 0, [], PipelineStatus.Pending⟩)], 1⟩ "abc").result =
      some ⟨0, "s", 0, [], PipelineStatus.Pending⟩ := by
  exact ⟨⟨by decide, by decide⟩, by decide⟩

/-- C4: a POST /pipeline request with an empty body replies 400, no
identity is allocated, no pipeline is created, and the registry is
unchanged. -/
theorem serveNewPipeline_emptyBody_400 (shellSplit : String → Option (List String))
    (engine : SubprocessEngine) (delayQ paramsQ : String) :
    (serveNewPipeline shellSplit engine (Except.ok "") delayQ paramsQ).reply.code = 400 ∧
    (serveNewPipeline shellSplit engine (Except.ok "") delayQ paramsQ).engine = engine ∧
    (serveNewPipeline shellSplit engine (Except.ok "") delayQ paramsQ).created = none :=
  ⟨rfl, rfl, rfl⟩

/-- C7: a GET /pipeline/:id request whose id parses as an integer that
is not a registry key replies exactly one 404, returns no pipeline,
and leaves the registry state (mapping and stored pipelines)
unchanged. -/
theorem getPipeline_unknownId_404 (engine : SubprocessEngine) (idStr : String) (id : Int)
    (hok : goAtoi idStr = (id, true))
    (habs : lookupAssoc engine.pipelines id = none) :
    (getPipeline engine idStr).replies = [⟨404, "Pipeline does not exist: " ++ idStr⟩] ∧
    (getPipeline engine idStr).result = none ∧
    (getPipeline engine idStr).engine = engine := by
  unfold getPipeline
  rw [hok]
  simp [habs]

/-- Witness for C7 at the concrete input id "7" on the empty
registry. -/
theorem getPipeline_unknownId_404_witness :
    (getPipeline ⟨[], 0⟩ "7").replies = [⟨404, "Pipeline does not exist: 7"⟩] ∧
    (getPipeline ⟨[], 0⟩ "7").result = none ∧
    (getPipeline ⟨[], 0⟩ "7").engine = ⟨[], 0⟩ :=
  getPipeline_unknownId_404 ⟨[], 0⟩ "7" 7 (by decide) (by decide)

/-- C8: when the synchronous creation call returns an error (and a
pipeline object, see C10 for the nil case), the handler replies 412,
never 201; when creation succeeds the handler replies 201. -/
theorem finishNewPipeline_codes (p : RunningPipeline) (pl : Option RunningPipeline)
    (msg : String) :
    (finishNewPipeline (some p) (some msg)).map HttpReply.code = some 412 ∧
    (finishNewPipeline pl none).map HttpReply.code = some 201 :=
  ⟨rfl, by cases pl <;> rfl⟩

/-- C10: the error path of serveNewPipeline reads the Id field of the
returned pipeline to build the 412 message (the message contains
toString p.Id), so with a nil pipeline and a non-nil error the
handler dereferences nil (embedded as the result none); with a
non-nil pipeline the reply is produced.  Hence the handler is free of
nil dereference exactly when creation returns a non-nil pipeline in
the error case. -/
theorem finishNewPipeline_nilDeref (p : RunningPipeline) (msg : String) :
    finishNewPipeline none (some msg) = none ∧
    finishNewPipeline (some p) (some msg) =
      some ⟨412, "Error starting pipeline " ++ toString p.Id ++ ": " ++ msg⟩ :=
  ⟨rfl, rfl⟩

/-- C6 counterexample: the claim states that every delay value passed
to pipeline creation is non-negative.  At the concrete input delay
query "-1s" (body "x", no params) the handler proceeds to creation
and passes the negative delay -1000000000 nanoseconds: the code never
checks the sign of the parsed duration. -/
theorem serveNewPipeline_negativeDelay_cex :
    (serveNewPipeline (fun _ => some []) ⟨[], 0⟩ (Except.ok "x") "-1s" "").created =
      some ("x", -1000000000, []) ∧ ¬((0 : Int) ≤ -1000000000) := by
  exact ⟨by decide, by decide⟩

/-- Helper: whenever serveNewPipeline reaches the creation call, the
delay argument it passes is the default (when the delay query is
empty) or exactly the value returned by the duration parser. -/
theorem serveNewPipeline_created_delay (shellSplit : String → Option (List String))
    (engine : SubprocessEngine) (body : Except String String) (delayQ paramsQ : String)
    (s : String) (d : Int) (ps : List String)
    (h : (serveNewPipeline shellSplit engine body delayQ paramsQ).created = some (s, d, ps)) :
    (delayQ = "" ∧ d = DefaultNewPipelineDelay) ∨ goParseDuration delayQ = some d := by
  cases body with
  | error msg => simp [serveNewPipeline] at h
  | ok script =>
    simp only [serveNewPipeline] at h
    by_cases hs : script.length = 0
    · simp [hs] at h
    · rw [if_neg hs] at h
      cases hdq : (if delayQ = "" then some DefaultNewPipelineDelay else goParseDuration delayQ) with
      | none => rw [hdq] at h; simp at h
      | some delay =>
        rw [hdq] at h
        cases hpq : (if paramsQ = "" then some ([] : List String) else shellSplit paramsQ) with
        | none => rw [hpq] at h; simp at h
        | some extraParams =>
          rw [hpq] at h
          simp [NewPipeline] at h
          obtain ⟨-, hd, -⟩ := h
          by_cases hq : delayQ = ""
          · rw [if_pos hq] at hdq
            left
            refine ⟨hq, ?_⟩
            injection hdq with hdq2
            omega
          · right
            rw [if_neg hq] at hdq
            rw [hdq, hd]

/-- Helper: a present but unparsable delay query makes serveNewPipeline
reply 400, leave the registry unchanged and never reach creation. -/
theorem serveNewPipeline_badDelay (shellSplit : String → Option (List String))
    (engine : SubprocessEngine) (script delayQ paramsQ : String)
    (hne : delayQ ≠ "") (hp : goParseDuration delayQ = none) :
    (serveNewPipeline shellSplit engine (Except.ok script) delayQ paramsQ).reply.code = 400 ∧
    (serveNewPipeline shellSplit engine (Except.ok script) delayQ paramsQ).engine = engine ∧
    (serveNewPipeline shellSplit engine (Except.ok script) delayQ paramsQ).created = none := by
  simp only [serveNewPipeline]
  by_cases hs : script.length = 0
  · simp [hs]
  · rw [if_neg hs, if_neg hne, hp]
    exact ⟨rfl, rfl, rfl⟩

/-- C5: for POST /pipeline, an absent or empty delay query makes every
pipeline that is created carry exactly the default 200 millisecond
(200000000 nanosecond) delay; a present delay query that does not
parse as a duration makes the handler reply 400 with no pipeline
created and the registry unchanged. -/
theorem serveNewPipeline_delay_spec (shellSplit : String → Option (List String))
    (engine : SubprocessEngine) (script delayQ paramsQ : String) :
    (∀ a ∈ (serveNewPipeline shellSplit engine (Except.ok script) "" paramsQ).created,
        a.2.1 = DefaultNewPipelineDelay) ∧
    (delayQ ≠ "" → goParseDuration delayQ = none →
      (serveNewPipeline shellSplit engine (Except.ok script) delayQ paramsQ).reply.code = 400 ∧
      (serveNewPipeline shellSplit engine (Except.ok script) delayQ paramsQ).engine = engine ∧
      (serveNewPipeline shellSplit engine (Except.ok script) delayQ paramsQ).created = none) := by
  constructor
  · intro a ha
    obtain ⟨s, d, ps⟩ := a
    rw [Option.mem_def] at ha
    rcases serveNewPipeline_created_delay shellSplit engine (Except.ok script) "" paramsQ
      s d ps ha with ⟨-, hdef⟩ | hparse
    · exact hdef
    · have h0 : goParseDuration "" = none := by decide
      rw [h0] at hparse
      exact Option.noConfusion hparse
  · intro hne hp
    exact serveNewPipeline_badDelay shellSplit engine script delayQ paramsQ hne hp

/-- Witness for C5 at concrete inputs: body "x" with empty delay query
creates a pipeline with the default delay; delay query "xyz" (which
does not parse) yields 400 with nothing created. -/
theorem serveNewPipeline_delay_spec_witness :
    ("x", DefaultNewPipelineDelay, ([] : List String)).2.1 = DefaultNewPipelineDelay ∧
    ((serveNewPipeline (fun _ => some []) ⟨[], 0⟩ (Except.ok "x") "xyz" "").reply.code = 400 ∧
      (serveNewPipeline (fun _ => some []) ⟨[], 0⟩ (Except.ok "x") "xyz" "").engine = ⟨[], 0⟩ ∧
      (serveNewPipeline (fun _ => some []) ⟨[], 0⟩ (Except.ok "x") "xyz" "").created = none) :=
  ⟨(serveNewPipeline_delay_spec (fun _ => some []) ⟨[], 0⟩ "x" "xyz" "").1
      ("x", DefaultNewPipelineDelay, []) (by decide),
    (serveNewPipeline_delay_spec (fun _ => some []) ⟨[], 0⟩ "x" "xyz" "").2
      (by decide) (by decide)⟩

/-- C6 amended: the delay value passed to pipeline creation is the
default 200 milliseconds when the delay query is absent or empty, and
otherwise exactly the parsed duration value, which may be negative
(the handler does not enforce non-negativity). -/
theorem serveNewPipeline_delay_passed (shellSplit : String → Option (List String))
    (engine : SubprocessEngine) (body : Except String String) (delayQ paramsQ : String)
    (s : String) (d : Int) (ps : List String)
    (h : (serveNewPipeline shellSplit engine body delayQ paramsQ).created = some (s, d, ps)) :
    (delayQ = "" ∧ d = DefaultNewPipelineDelay) ∨ goParseDuration delayQ = some d :=
  serveNewPipeline_created_delay shellSplit engine body delayQ paramsQ s d ps h

/-- Witness for the amended C6 at the concrete input delay query
"-2s". -/
theorem serveNewPipeline_delay_passed_witness :
    ("-2s" = "" ∧ (-2000000000 : Int) = DefaultNewPipelineDelay) ∨
      goParseDuration "-2s" = some (-2000000000) :=
  serveNewPipeline_delay_passed (fun _ => some []) ⟨[], 0⟩ (Except.ok "x") "-2s" ""
    "x" (-2000000000) [] (by decide)

/-- C2: for every well-formed registry state, GET /pipelines returns
the identities of all registered pipelines, sorted strictly ascending
(hence each identity appears exactly once), and an identity is in the
response exactly when it is a key of the registry. -/
theorem servePipelines_listing (engine : SubprocessEngine) (h : EngineWF engine) :
    (servePipelines engine).Sorted (· < ·) ∧
    ∀ a : Int, a ∈ servePipelines engine ↔ a ∈ engine.pipelines.map Prod.fst := by
  obtain ⟨hnd, hid⟩ := h
  have hl : servePipelines engine =
      List.insertionSort (· ≤ ·) (engine.pipelines.map Prod.fst) := by
    unfold servePipelines serveFilteredPipelineIds
    simp only [List.filter_true]
    congr 1
    exact List.map_congr_left hid
  have hperm : (servePipelines engine).Perm (engine.pipelines.map Prod.fst) := by
    rw [hl]; exact List.perm_insertionSort _ _
  have hsorted : (servePipelines engine).Sorted (· ≤ ·) := by
    rw [hl]; exact List.sorted_insertionSort _ _
  have hnodup : (servePipelines engine).Nodup := hperm.nodup_iff.mpr hnd
  exact ⟨hsorted.lt_of_le hnodup, fun a => hperm.mem_iff⟩

/-- Witness for C2 on a concrete two-entry registry inserted out of
order. -/
theorem servePipelines_listing_witness :
    (servePipelines ⟨[(3, ⟨3, "a", 0, [], .Pending⟩), (1, ⟨1, "b", 0, [], .Running⟩)], 4⟩).Sorted (· < ·) ∧
    ∀ a : Int,
      a ∈ servePipelines ⟨[(3, ⟨3, "a", 0, [], .Pending⟩), (1, ⟨1, "b", 0, [], .Running⟩)], 4⟩ ↔
      a ∈ (SubprocessEngine.mk [(3, ⟨3, "a", 0, [], .Pending⟩), (1, ⟨1, "b", 0, [], .Running⟩)] 4).pipelines.map Prod.fst :=
  servePipelines_listing ⟨[(3, ⟨3, "a", 0, [], .Pending⟩), (1, ⟨1, "b", 0, [], .Running⟩)], 4⟩
    ⟨by decide, by decide⟩

/-- C3: for every well-formed registry state, GET /running returns a
strictly ascending list containing exactly the identities whose
pipeline has status Running; pipelines in any other state (Pending,
Failed, Killed, Finished) are excluded. -/
theorem serveRunningPipelines_listing (engine : SubprocessEngine) (h : EngineWF engine) :
    (serveRunningPipelines engine).Sorted (· < ·) ∧
    ∀ a : Int, a ∈ serveRunningPipelines engine ↔
      ∃ p : RunningPipeline, (a, p) ∈ engine.pipelines ∧ p.Status = PipelineStatus.Running := by
  obtain ⟨hnd, hid⟩ := h
  have hperm : (serveRunningPipelines engine).Perm
      ((engine.pipelines.filter fun kv => kv.2.Status == StatusRunning).map fun kv => kv.2.Id) :=
    List.perm_insertionSort _ _
  have hsorted : (serveRunningPipelines engine).Sorted (· ≤ ·) :=
    List.sorted_insertionSort _ _
  have hids : engine.pipelines.map (fun kv => kv.2.Id) = engine.pipelines.map Prod.fst :=
    List.map_congr_left hid
  have hsub : ((engine.pipelines.filter fun kv => kv.2.Status == StatusRunning).map fun kv => kv.2.Id).Sublist
      (engine.pipelines.map fun kv => kv.2.Id) :=
    List.Sublist.map _ (List.filter_sublist _)
  have hsub2 : ((engine.pipelines.filter fun kv => kv.2.Status == StatusRunning).map fun kv => kv.2.Id).Sublist
      (engine.pipelines.map Prod.fst) := hids ▸ hsub
  have hlnd : ((engine.pipelines.filter fun kv => kv.2.Status == StatusRunning).map fun kv => kv.2.Id).Nodup :=
    List.Nodup.sublist hsub2 hnd
  have hmem : ∀ a : Int,
      (a ∈ (engine.pipelines.filter fun kv => kv.2.Status == StatusRunning).map fun kv => kv.2.Id) ↔
      ∃ p : RunningPipeline, (a, p) ∈ engine.pipelines ∧ p.Status = PipelineStatus.Running := by
    intro a
    constructor
    · intro hm
      rw [List.mem_map] at hm
      obtain ⟨⟨k, p⟩, hkv, hkvid⟩ := hm
      rw [List.mem_filter] at hkv
      obtain ⟨hin, hrun⟩ := hkv
      have hpk : p.Id = k := hid (k, p) hin
      have hk : k = a := by rw [← hpk]; exact hkvid
      subst hk
      refine ⟨p, hin, ?_⟩
      simpa [StatusRunning] using hrun
    · rintro ⟨p, hin, hrun⟩
      rw [List.mem_map]
      refine ⟨(a, p), ?_, ?_⟩
      · rw [List.mem_filter]
        exact ⟨hin, by simp [StatusRunning, hrun]⟩
      · exact hid (a, p) hin
  have hnodup : (serveRunningPipelines engine).Nodup := hperm.nodup_iff.mpr hlnd
  exact ⟨hsorted.lt_of_le hnodup, fun a => (hperm.mem_iff).trans (hmem a)⟩

/-- Witness for C3 on a concrete registry holding one Running, one
Pending and one Finished pipeline. -/
theorem serveRunningPipelines_listing_witness :
    (serveRunningPipelines ⟨[(2, ⟨2, "a", 0, [], .Pending⟩), (1, ⟨1, "b", 0, [], .Running⟩), (5, ⟨5, "c", 0, [], .Finished⟩)], 6⟩).Sorted (· < ·) ∧
    ∀ a : Int,
      a ∈ serveRunningPipelines ⟨[(2, ⟨2, "a", 0, [], .Pending⟩), (1, ⟨1, "b", 0, [], .Running⟩), (5, ⟨5, "c", 0, [], .Finished⟩)], 6⟩ ↔
      ∃ p : RunningPipeline,
        (a, p) ∈ (SubprocessEngine.mk [(2, ⟨2, "a", 0, [], .Pending⟩), (1, ⟨1, "b", 0, [], .Running⟩), (5, ⟨5, "c", 0, [], .Finished⟩)] 6).pipelines ∧
        p.Status = PipelineStatus.Running :=
  serveRunningPipelines_listing
    ⟨[(2, ⟨2, "a", 0, [], .Pending⟩), (1, ⟨1, "b", 0, [], .Running⟩), (5, ⟨5, "c", 0, [], .Finished⟩)], 6⟩
    ⟨by decide, by decide⟩
